import Mathlib

/-!
Verification of the stock-dashboard pipeline (`stocks_dashboard.py`).

The pipeline is a linear, stateless transform over a time-indexed price
table: fetch → normalize (`process_data`) → indicators
(`add_technical_indicators`) → metrics (`calculate_metrics`) → chart
shaping, plus a fixed four-symbol watchlist loop.  We embed the table as a
list of rows of rational-valued cells (pandas float columns become `ℚ`),
fallible operations return `Option` (a raised exception makes the call
`none`; the non-finite float produced by numpy's zero-divisor division in
`calculate_metrics` is a `none` field of an otherwise returned value),
and the raw pandas frame handled by `process_data` is a structure
carrying its index explicitly.
-/

namespace StocksDashboard

/-- Display timezone of a timezone-aware datetime index.  `tz_localize`
and `tz_convert` change only this label; the stored instants pass through
unchanged. -/
inductive Tz
  | utc
  | eastern
  deriving DecidableEq, Repr

/-- A pandas frame index: either a (possibly timezone-naive) datetime
index with a name and a list of instants, or the positional `RangeIndex`
left behind by `reset_index`. -/
inductive DFIndex
  | datetime (name : String) (tz : Option Tz) (stamps : List Int)
  | range (n : Nat)
  deriving DecidableEq, Repr

/-- A raw pandas frame as `process_data` sees it: an index plus named
numeric columns. -/
structure Frame where
  index : DFIndex
  cols : List (String × List ℚ)
  deriving DecidableEq, Repr

/-- `rename(columns={'Date': 'Datetime'})` (line 33): every column named
`Date` is relabelled `Datetime`; all values are untouched. -/
def renameDate (cs : List (String × List ℚ)) : List (String × List ℚ) :=
  cs.map fun nc => (if nc.1 = "Date" then "Datetime" else nc.1, nc.2)

/-- `process_data` (lines 28-34).  Reading `.tzinfo` off the index only
succeeds on a datetime index: on the `RangeIndex` produced by a previous
`reset_index` it raises `AttributeError`, modelled as `none`.  On a
datetime index, a naive index is localized to UTC and then converted to
US/Eastern — both operations keep the stored instants, so the model
passes `stamps` through — after which `reset_index` turns the index into
a leading column named after the index and leaves a `RangeIndex`, and the
`Date` → `Datetime` rename is applied. -/
def process_data (f : Frame) : Option Frame :=
  match f.index with
  | .range _ => none
  | .datetime name _tz stamps =>
      some { index := .range stamps.length
             cols := renameDate ((name, stamps.map fun t => (t : ℚ)) :: f.cols) }

/-- One row of the canonical table, after `process_data`: a timestamp and
the five OHLCV fields (pandas float cells become `ℚ`). -/
structure PriceRow where
  dt : Int
  open_ : ℚ
  high : ℚ
  low : ℚ
  close : ℚ
  volume : ℚ
  deriving DecidableEq, Repr

/-- The canonical table: rows in time order. -/
abbrev PriceTable := List PriceRow

/-- `Series.max()`: `none` on an empty column (pandas yields NaN there),
otherwise the greatest cell. -/
def seriesMax : List ℚ → Option ℚ
  | [] => none
  | x :: xs => some (xs.foldl max x)

/-- `Series.min()`: `none` on an empty column, otherwise the least cell. -/
def seriesMin : List ℚ → Option ℚ
  | [] => none
  | x :: xs => some (xs.foldl min x)

/-- The value tuple returned by `calculate_metrics` (line 62):
`(last_close, change, pct_change, high, low, volume)`.  `pct_change` is
`none` when the zero baseline makes the float quotient non-finite. -/
structure Metrics where
  last_close : ℚ
  change : ℚ
  pct_change : Option ℚ
  high : ℚ
  low : ℚ
  volume : ℚ
  deriving DecidableEq, Repr

/-- `calculate_metrics` (lines 37-62).  `iloc[-1]` / `iloc[0]` on an
empty column raise `IndexError`, so the whole call is `none` on a
zero-row table.  `change = last_close - prev_close` where `prev_close`
is the first row's Close; `pct_change = (change / prev_close) * 100`
(non-finite, hence `none`, when `prev_close = 0`); `high`/`low`/`volume`
reduce the full High, Low and Volume columns. -/
def calculate_metrics (t : PriceTable) : Option Metrics := do
  let last_close ← (t.map PriceRow.close).getLast?
  let prev_close ← (t.map PriceRow.close).head?
  let change := last_close - prev_close
  let pct_change : Option ℚ :=
    if prev_close = 0 then none else some (change / prev_close * 100)
  let high ← seriesMax (t.map PriceRow.high)
  let low ← seriesMin (t.map PriceRow.low)
  let volume := (t.map PriceRow.volume).sum
  pure { last_close, change, pct_change, high, low, volume }

/-- `Series.rolling(w, min_periods=w).mean()`, the computation behind
`SMAIndicator(close, window=20).sma_indicator()` with `fillna=False`:
cell `i` is `none` until a full window of `w` observations exists
(`i + 1 < w`) and otherwise the arithmetic mean of the `w` trailing
values. -/
def rollingMean (w : Nat) (xs : List ℚ) : List (Option ℚ) :=
  (List.range xs.length).map fun i =>
    if i + 1 < w then none
    else some (((xs.drop (i + 1 - w)).take w).sum / (w : ℚ))

/-- The recursion of `Series.ewm(span, adjust=False)` after its first
observation: `y_t = (1 - α) * y_(t-1) + α * x_t`. -/
def ewmaFrom (a : ℚ) (y : ℚ) : List ℚ → List ℚ
  | [] => []
  | x :: xs =>
      let y2 := (1 - a) * y + a * x
      y2 :: ewmaFrom a y2 xs

/-- `Series.ewm(span, adjust=False).mean()` before masking: the output
starts at the first observation itself (`y_0 = x_0`) and then follows the
`ewmaFrom` recursion. -/
def ewmAdjFalse (a : ℚ) : List ℚ → List ℚ
  | [] => []
  | x :: xs => x :: ewmaFrom a x xs

/-- `min_periods` masking: cell `i` of the output is NaN (`none`) until
`w` observations have been seen, and the underlying value afterwards. -/
def maskMinPeriods (w : Nat) (ys : List ℚ) : List (Option ℚ) :=
  (List.range ys.length).map fun i =>
    if i + 1 < w then none else some (ys.getD i 0)

/-- `EMAIndicator(close, window=w).ema_indicator()` with `fillna=False`:
`close.ewm(span=w, min_periods=w, adjust=False).mean()` — the
adjust-False recursion seeded at the very first Close, with the first
`w - 1` outputs masked to NaN. -/
def emaIndicator (w : Nat) (xs : List ℚ) : List (Option ℚ) :=
  maskMinPeriods w (ewmAdjFalse (2 / (w + 1 : ℚ)) xs)

/-- A row of the table after `add_technical_indicators`: the original row
plus the two appended indicator cells (NaN cells are `none`). -/
structure IndRow where
  base : PriceRow
  sma20 : Option ℚ
  ema20 : Option ℚ
  deriving DecidableEq, Repr

/-- Column assignment `data['SMA_20'] = s; data['EMA_20'] = e`: the
indicator series are index-aligned with the frame, so row `i` gains the
`i`-th cell of each series. -/
def attachInd : List PriceRow → List (Option ℚ) → List (Option ℚ) → List IndRow
  | r :: rs, s :: ss, e :: es => ⟨r, s, e⟩ :: attachInd rs ss es
  | _, _, _ => []

/-- `add_technical_indicators` (lines 67-79).  The Close column (already
one-dimensional in the canonical table, so the defensive flattening is
the identity) feeds `SMAIndicator` and `EMAIndicator` with `window=20`,
and the two resulting series are assigned as new columns `SMA_20` and
`EMA_20`; nothing else in the frame changes. -/
def add_technical_indicators (t : PriceTable) : List IndRow :=
  let closes := t.map PriceRow.close
  attachInd t (rollingMean 20 closes) (emaIndicator 20 closes)

/-- A `yf.download` call as issued by `fetch_stock_data`: either an
explicit `start`/`end` window or a named period, always with an
interval.  Timestamps are counted in days. -/
inductive FetchRequest
  | byWindow (ticker : String) (start : Int) (stop : Int) (interval : String)
  | byPeriod (ticker : String) (period : String) (interval : String)
  deriving DecidableEq, Repr

/-- `fetch_stock_data` (lines 12-18): for period `1wk` the request uses
an explicit window from `now - timedelta(days=7)` to `now`; every other
period is passed to the provider by name. -/
def fetch_stock_data (ticker period interval : String) (now : Int) : FetchRequest :=
  if period = "1wk" then .byWindow ticker (now - 7) now interval
  else .byPeriod ticker period interval

/-- `interval_mapping` (lines 92-98): the fixed period → interval lookup
table; `none` for keys outside the five periods (a `KeyError` lookup). -/
def interval_mapping : String → Option String
  | "1d" => some "1m"
  | "1wk" => some "30m"
  | "1mo" => some "1d"
  | "1y" => some "1wk"
  | "max" => some "1wk"
  | _ => none

/-- Python `str.upper()` on the ASCII widget strings: uppercase every
character. -/
def strUpper (s : String) : String := ⟨s.data.map Char.toUpper⟩

/-- The chart window title set by `fig.update_layout` (line 135):
`f'{ticker} {time_period.upper()} Chart'`. -/
def chartTitle (ticker period : String) : String :=
  ticker ++ " " ++ strUpper period ++ " Chart"

/-- A sidebar watchlist quote: `last_price`, `change`, `pct_change`.
All three are defined whenever a quote is produced at all. -/
structure Quote where
  last_price : ℚ
  change : ℚ
  pct_change : ℚ
  deriving DecidableEq, Repr

/-- The per-symbol computation inside the watchlist `try` block
(lines 159-173): `last_price = Close.iloc[-1]`,
`open_price = Open.iloc[0]` (each raising `IndexError` on an empty
column, hence `none`), `change = last_price - open_price` and
`pct_change = (change / open_price) * 100`.  Unlike `calculate_metrics`,
both prices pass through `float()` (lines 169-170) before the division,
so a zero `open_price` raises `ZeroDivisionError` at line 173 and the
whole computation fails — no quote is produced. -/
def watchQuote (t : PriceTable) : Option Quote := do
  let last_price ← (t.map PriceRow.close).getLast?
  let open_price ← (t.map PriceRow.open_).head?
  let change := last_price - open_price
  if open_price = 0 then none
  else pure { last_price, change, pct_change := change / open_price * 100 }

/-- The fixed watchlist (line 152). -/
def stock_symbols : List String := ["AAPL", "GOOGL", "AMZN", "MSFT"]

/-- What one iteration of the watchlist loop encounters, chosen by the
environment: the fetch call raises; the fetch returns zero rows; the
normalization `process_data` raises; or fetch and normalization succeed
and yield canonical table `t`. -/
inductive SymbolOutcome
  | fetchRaises
  | fetchEmpty
  | processRaises
  | ok (t : PriceTable)
  deriving DecidableEq, Repr

/-- One element rendered into the sidebar: a quote metric or the
per-symbol `Error processing {symbol}` message. -/
inductive SidebarItem
  | metric (symbol : String) (q : Quote)
  | errorMsg (symbol : String)
  deriving DecidableEq, Repr

/-- The watchlist loop (lines 154-178).  `fetch_stock_data` (line 155)
and `process_data` (line 157) sit outside the `try`, so an exception in
either is uncaught and aborts the whole loop (the `Bool` records the
escape; nothing after it renders).  An empty fetch result is skipped by
the `if not real_time_data.empty` guard.  Inside the `try`, a failing
quote computation is caught and rendered as a per-symbol error message,
and the loop continues. -/
def runWatchlist (env : String → SymbolOutcome) : List String → List SidebarItem × Bool
  | [] => ([], false)
  | s :: rest =>
      match env s with
      | .fetchRaises => ([], true)
      | .processRaises => ([], true)
      | .fetchEmpty => runWatchlist env rest
      | .ok t =>
          let item :=
            match watchQuote t with
            | some q => SidebarItem.metric s q
            | none => SidebarItem.errorMsg s
          let tail := runWatchlist env rest
          (item :: tail.1, tail.2)

/-- EMA seeded at the first observation, as an index recursion:
`e_0 = x_0` and `e_(i+1) = (1 - a) * e_i + a * x_(i+1)`.  This closed
recurrence is what `ewm(adjust=False)` computes; the bridge is proved
below. -/
def emaSeedFirst (a : ℚ) (xs : List ℚ) : Nat → ℚ
  | 0 => xs.headD 0
  | i + 1 => (1 - a) * emaSeedFirst a xs i + a * xs.getD (i + 1) 0

/-- Modelled from the spec's words "seeded from the first available
20-bar window per standard EMA convention": undefined before a full
window of `w` bars, equal to the SMA of the first `w` bars at the first
defined row, and following the standard recursion
`e_(i+1) = (1 - a) * e_i + a * x_(i+1)` afterwards.  Used only to
compare the claimed seeding against the code's EMA. -/
def emaSeedWindow (w : Nat) (a : ℚ) (xs : List ℚ) : Nat → Option ℚ
  | 0 => if w = 1 then some ((xs.take 1).sum / 1) else none
  | j + 1 =>
      if j + 2 < w then none
      else if j + 2 = w then some ((xs.take w).sum / (w : ℚ))
      else (emaSeedWindow w a xs j).map fun e => (1 - a) * e + a * xs.getD (j + 1) 0

/-- What the claimed isolation would render for one symbol: nothing for
an empty fetch, the quote metric when the `try` block succeeds, the
per-symbol error message when it fails. -/
def renderOne (env : String → SymbolOutcome) (s : String) : Option SidebarItem :=
  match env s with
  | .fetchRaises => none
  | .processRaises => none
  | .fetchEmpty => none
  | .ok t =>
      match watchQuote t with
      | some q => some (.metric s q)
      | none => some (.errorMsg s)

/-- The spec's scenario table: Close column `[100, 102, 99, 105]`. -/
def scenarioTable : PriceTable :=
  [⟨0, 100, 101, 99, 100, 10⟩, ⟨1, 100, 103, 98, 102, 20⟩,
   ⟨2, 100, 100, 97, 99, 30⟩, ⟨3, 100, 106, 99, 105, 40⟩]

section FoldBounds

/-- The running-maximum fold lands on one of its inputs. -/
lemma foldl_max_mem : ∀ (xs : List ℚ) (x : ℚ), xs.foldl max x ∈ x :: xs
  | [], _ => by simp
  | y :: ys, x => by
      have h := foldl_max_mem ys (max x y)
      rcases List.mem_cons.mp h with h1 | h2
      · rcases max_choice x y with hc | hc
        · exact List.mem_cons.mpr (Or.inl (h1.trans hc))
        · exact List.mem_cons.mpr (Or.inr (List.mem_cons.mpr (Or.inl (h1.trans hc))))
      · exact List.mem_cons.mpr (Or.inr (List.mem_cons.mpr (Or.inr h2)))

/-- The running-maximum fold bounds every input from above. -/
lemma le_foldl_max : ∀ (xs : List ℚ) (x : ℚ), ∀ y ∈ x :: xs, y ≤ xs.foldl max x
  | [], _ => by simp
  | z :: zs, x => by
      intro y hy
      have ihm := le_foldl_max zs (max x z)
      rcases List.mem_cons.mp hy with h1 | h2
      · subst h1
        exact le_trans (le_max_left y z) (ihm _ (List.mem_cons_self _ _))
      · rcases List.mem_cons.mp h2 with h3 | h4
        · subst h3
          exact le_trans (le_max_right x y) (ihm _ (List.mem_cons_self _ _))
        · exact ihm y (List.mem_cons.mpr (Or.inr h4))

/-- The running-minimum fold lands on one of its inputs. -/
lemma foldl_min_mem : ∀ (xs : List ℚ) (x : ℚ), xs.foldl min x ∈ x :: xs
  | [], _ => by simp
  | y :: ys, x => by
      have h := foldl_min_mem ys (min x y)
      rcases List.mem_cons.mp h with h1 | h2
      · rcases min_choice x y with hc | hc
        · exact List.mem_cons.mpr (Or.inl (h1.trans hc))
        · exact List.mem_cons.mpr (Or.inr (List.mem_cons.mpr (Or.inl (h1.trans hc))))
      · exact List.mem_cons.mpr (Or.inr (List.mem_cons.mpr (Or.inr h2)))

/-- The running-minimum fold bounds every input from below. -/
lemma foldl_min_le : ∀ (xs : List ℚ) (x : ℚ), ∀ y ∈ x :: xs, xs.foldl min x ≤ y
  | [], _ => by simp
  | z :: zs, x => by
      intro y hy
      have ihm := foldl_min_le zs (min x z)
      rcases List.mem_cons.mp hy with h1 | h2
      · subst h1
        exact le_trans (ihm _ (List.mem_cons_self _ _)) (min_le_left y z)
      · rcases List.mem_cons.mp h2 with h3 | h4
        · subst h3
          exact le_trans (ihm _ (List.mem_cons_self _ _)) (min_le_right x y)
        · exact ihm y (List.mem_cons.mpr (Or.inr h4))

end FoldBounds

/-- A two-row table with Close going 100 → 105, used to instantiate the
metric theorems. -/
def twoRowTable : PriceTable :=
  [⟨0, 1, 1, 1, 100, 1⟩, ⟨1, 1, 1, 1, 105, 1⟩]

/-- C1: on every non-empty canonical table `calculate_metrics` returns
`last_close` equal to the final row's Close, `change` equal to
`last_close` minus the first row's Close (so `prev_close` is the first
row's Close), `high` the maximum of the High column, `low` the minimum of
the Low column and `volume` the sum of the Volume column; and on the
table with Close `[100, 102, 99, 105]` it yields `last_close = 105`,
`change = 5`, `pct_change = 5`. -/
theorem c1_calculate_metrics_summary :
    (∀ (t : PriceTable) (h : t ≠ []), ∃ m : Metrics,
      calculate_metrics t = some m ∧
      m.last_close = (t.getLast h).close ∧
      m.change = m.last_close - (t.head h).close ∧
      m.high ∈ t.map PriceRow.high ∧ (∀ x ∈ t.map PriceRow.high, x ≤ m.high) ∧
      m.low ∈ t.map PriceRow.low ∧ (∀ x ∈ t.map PriceRow.low, m.low ≤ x) ∧
      m.volume = (t.map PriceRow.volume).sum) ∧
    calculate_metrics scenarioTable =
      some { last_close := 105, change := 5, pct_change := some 5,
             high := 106, low := 97, volume := 100 } := by
  constructor
  · intro t h
    obtain ⟨r, rs, rfl⟩ := List.exists_cons_of_ne_nil h
    have h1 : (r.close :: List.map PriceRow.close rs).getLast? =
        some (((r :: rs).getLast h).close) := by
      show (List.map PriceRow.close (r :: rs)).getLast? = _
      rw [List.getLast?_map, List.getLast?_eq_getLast_of_ne_nil h]
      rfl
    refine ⟨{ last_close := ((r :: rs).getLast h).close,
              change := ((r :: rs).getLast h).close - r.close,
              pct_change := if r.close = 0 then none
                else some ((((r :: rs).getLast h).close - r.close) / r.close * 100),
              high := (rs.map PriceRow.high).foldl max r.high,
              low := (rs.map PriceRow.low).foldl min r.low,
              volume := ((r :: rs).map PriceRow.volume).sum },
            ?_, rfl, rfl, ?_, ?_, ?_, ?_, rfl⟩
    · simp [calculate_metrics, h1, seriesMax, seriesMin]
    · exact foldl_max_mem _ _
    · exact le_foldl_max _ _
    · exact foldl_min_mem _ _
    · exact foldl_min_le _ _
  · norm_num [calculate_metrics, scenarioTable, seriesMax, seriesMin]

/-- Witness for C1's general part, instantiated at the spec's scenario
table. -/
theorem c1_calculate_metrics_summary_witness :
    ∃ m : Metrics, calculate_metrics scenarioTable = some m ∧
      m.last_close = 105 ∧ m.change = 5 := by
  obtain ⟨m, hm, hlast, hchg, -⟩ :=
    c1_calculate_metrics_summary.1 scenarioTable (by decide)
  refine ⟨m, hm, ?_, ?_⟩
  · rw [hlast]; norm_num [scenarioTable]
  · rw [hchg, hlast]; norm_num [scenarioTable]

/-- C3: on every zero-row table, `calculate_metrics` fails (the `iloc`
access raises) instead of returning a metrics value of misleading
zeros. -/
theorem c3_calculate_metrics_empty_fails :
    ∀ t : PriceTable, t.length = 0 → calculate_metrics t = none := by
  intro t ht
  rw [List.length_eq_zero] at ht
  subst ht
  rfl

/-- Witness for C3 at the empty table. -/
theorem c3_calculate_metrics_empty_fails_witness :
    calculate_metrics ([] : PriceTable) = none :=
  c3_calculate_metrics_empty_fails [] rfl

/-- C6: on every non-empty canonical table `calculate_metrics` computes
`change = last_close - prev_close` with `prev_close` the first row's
Close, and `pct_change = 100 * change / prev_close`: `none` (the
non-finite float) exactly when `prev_close = 0`, a defined rational — no
NaN — whenever `prev_close ≠ 0`. -/
theorem c6_pct_change_division :
    ∀ (t : PriceTable) (h : t ≠ []), ∃ m : Metrics,
      calculate_metrics t = some m ∧
      m.last_close = (t.getLast h).close ∧
      m.change = m.last_close - (t.head h).close ∧
      ((t.head h).close = 0 → m.pct_change = none) ∧
      ((t.head h).close ≠ 0 →
        m.pct_change = some (100 * m.change / (t.head h).close)) := by
  intro t h
  obtain ⟨r, rs, rfl⟩ := List.exists_cons_of_ne_nil h
  have h1 : (r.close :: List.map PriceRow.close rs).getLast? =
      some (((r :: rs).getLast h).close) := by
    show (List.map PriceRow.close (r :: rs)).getLast? = _
    rw [List.getLast?_map, List.getLast?_eq_getLast_of_ne_nil h]
    rfl
  refine ⟨{ last_close := ((r :: rs).getLast h).close,
            change := ((r :: rs).getLast h).close - r.close,
            pct_change := if r.close = 0 then none
              else some ((((r :: rs).getLast h).close - r.close) / r.close * 100),
            high := (rs.map PriceRow.high).foldl max r.high,
            low := (rs.map PriceRow.low).foldl min r.low,
            volume := ((r :: rs).map PriceRow.volume).sum },
          ?_, rfl, rfl, ?_, ?_⟩
  · simp [calculate_metrics, h1, seriesMax, seriesMin]
  · intro h0
    simp only [List.head_cons] at h0
    simp [h0]
  · intro h0
    simp only [List.head_cons] at h0
    simp only [List.head_cons, if_neg h0, Option.some_inj]
    ring

/-- Witness for C6 at a two-row table with Close 100 → 105 and non-zero
baseline: `pct_change = 5`. -/
theorem c6_pct_change_division_witness :
    ∃ m : Metrics, calculate_metrics twoRowTable = some m ∧
      m.pct_change = some 5 := by
  obtain ⟨m, hm, hlast, hchg, -, hnz⟩ :=
    c6_pct_change_division twoRowTable (by decide)
  refine ⟨m, hm, ?_⟩
  rw [hnz (by norm_num [twoRowTable]), hchg, hlast]
  norm_num [twoRowTable]

/-- A raw frame with a naive datetime index, as the provider returns it:
the concrete input for the idempotence counterexample. -/
def rawFrame : Frame :=
  { index := .datetime "Date" none [0, 1], cols := [("Close", [100, 101])] }

/-- C4 counterexample: `process_data` is not idempotent.  On a raw
datetime-indexed frame one application succeeds, but composing a second
application fails (the output's positional index has no `tzinfo`), so
`normalize ∘ normalize` differs from `normalize` at this input. -/
theorem c4_process_data_idempotent_cex :
    (process_data rawFrame).bind process_data ≠ process_data rawFrame := by
  simp [process_data, rawFrame, renameDate]

/-- C4 amended: `process_data` is not idempotent.  On every frame with a
datetime index it succeeds and returns a frame whose index is the
positional `RangeIndex`, and a second application to that output fails
(reading `.tzinfo` off a `RangeIndex` raises `AttributeError`) instead of
returning the same table. -/
theorem c4_process_data_not_idempotent :
    ∀ (name : String) (tz : Option Tz) (stamps : List Int)
      (cols : List (String × List ℚ)),
      ∃ g : Frame,
        process_data { index := .datetime name tz stamps, cols := cols } = some g ∧
        g.index = .range stamps.length ∧
        process_data g = none := by
  intro name tz stamps cols
  exact ⟨_, rfl, rfl, rfl⟩

/-- C7: `fetch_stock_data` issues an explicit 7-day window ending now for
period `1wk`, a named-period request for every other period, and the
`interval_mapping` table sends 1d to 1-minute, 1wk to 30-minute, 1mo to
daily, 1y to weekly and max to weekly bars. -/
theorem c7_fetch_request_shape :
    (∀ (tk i : String) (now : Int),
        fetch_stock_data tk "1wk" i now = .byWindow tk (now - 7) now i) ∧
    (∀ (tk p i : String) (now : Int), p ≠ "1wk" →
        fetch_stock_data tk p i now = .byPeriod tk p i) ∧
    interval_mapping "1d" = some "1m" ∧
    interval_mapping "1wk" = some "30m" ∧
    interval_mapping "1mo" = some "1d" ∧
    interval_mapping "1y" = some "1wk" ∧
    interval_mapping "max" = some "1wk" := by
  refine ⟨fun tk i now => ?_, fun tk p i now hp => ?_, rfl, rfl, rfl, rfl, rfl⟩
  · simp [fetch_stock_data]
  · simp [fetch_stock_data, hp]

/-- Witness for C7's named-period branch at period `1mo`. -/
theorem c7_fetch_request_shape_witness :
    fetch_stock_data "ADBE" "1mo" "1d" 0 = .byPeriod "ADBE" "1mo" "1d" :=
  c7_fetch_request_shape.2.1 "ADBE" "1mo" "1d" 0 (by decide)

/-- C8 counterexample: the chart title is not "{ticker} {period} Chart"
with the period as supplied — for ticker `ADBE` and period `1d` the code
produces `ADBE 1D Chart`, not `ADBE 1d Chart`. -/
theorem c8_chart_title_cex :
    chartTitle "ADBE" "1d" ≠ "ADBE 1d Chart" := by
  decide

/-- C8 amended: for every ticker the chart title is
"{ticker} {PERIOD} Chart" with the selected period uppercased, for each
of the five selectable periods. -/
theorem c8_chart_title_uppercased :
    ∀ tk : String,
      chartTitle tk "1d" = tk ++ " 1D Chart" ∧
      chartTitle tk "1wk" = tk ++ " 1WK Chart" ∧
      chartTitle tk "1mo" = tk ++ " 1MO Chart" ∧
      chartTitle tk "1y" = tk ++ " 1Y Chart" ∧
      chartTitle tk "max" = tk ++ " MAX Chart" := by
  intro tk
  refine ⟨?_, ?_, ?_, ?_, ?_⟩ <;>
    · show tk ++ " " ++ _ ++ " Chart" = _
      rw [String.append_assoc, String.append_assoc]
      congr 1

/-- C9: for every non-empty watchlist table with a non-zero first Open,
the sidebar quote has `last_price` equal to the final row's Close,
`change` equal to `last_price` minus the first row's Open, and
`pct_change = 100 * change / Open₀`.  When the first Open is zero the
float division at line 173 raises `ZeroDivisionError` and no quote is
produced at all. -/
theorem c9_watchlist_quote_change :
    ∀ (t : PriceTable) (h : t ≠ []),
      ((t.head h).open_ ≠ 0 → ∃ q : Quote,
        watchQuote t = some q ∧
        q.last_price = (t.getLast h).close ∧
        q.change = q.last_price - (t.head h).open_ ∧
        q.pct_change = 100 * q.change / (t.head h).open_) ∧
      ((t.head h).open_ = 0 → watchQuote t = none) := by
  intro t h
  obtain ⟨r, rs, rfl⟩ := List.exists_cons_of_ne_nil h
  have h1 : (r.close :: List.map PriceRow.close rs).getLast? =
      some (((r :: rs).getLast h).close) := by
    show (List.map PriceRow.close (r :: rs)).getLast? = _
    rw [List.getLast?_map, List.getLast?_eq_getLast_of_ne_nil h]
    rfl
  constructor
  · intro h0
    simp only [List.head_cons] at h0
    refine ⟨{ last_price := ((r :: rs).getLast h).close,
              change := ((r :: rs).getLast h).close - r.open_,
              pct_change := (((r :: rs).getLast h).close - r.open_) / r.open_ * 100 },
            ?_, rfl, rfl, ?_⟩
    · simp [watchQuote, h1, h0]
    · simp only [List.head_cons]
      ring
  · intro h0
    simp only [List.head_cons] at h0
    simp [watchQuote, h1, h0]

/-- Witness for C9 at the two-row table: Close goes 100 → 105 from an
Open of 1, so `change = 104`. -/
theorem c9_watchlist_quote_change_witness :
    ∃ q : Quote, watchQuote twoRowTable = some q ∧ q.change = 104 := by
  obtain ⟨q, hq, hlast, hchg, -⟩ :=
    (c9_watchlist_quote_change twoRowTable (by decide)).1 (by norm_num [twoRowTable])
  refine ⟨q, hq, ?_⟩
  rw [hchg, hlast]
  norm_num [twoRowTable]

section IndicatorLemmas

/-- The EWMA recursion produces one output per input. -/
lemma ewmaFrom_length : ∀ (xs : List ℚ) (a y : ℚ),
    (ewmaFrom a y xs).length = xs.length
  | [], _, _ => rfl
  | x :: xs, a, y => by
      simp only [ewmaFrom, List.length_cons]
      rw [ewmaFrom_length xs]

/-- `ewm(adjust=False).mean()` produces one output per input. -/
lemma ewmAdjFalse_length (a : ℚ) (xs : List ℚ) :
    (ewmAdjFalse a xs).length = xs.length := by
  cases xs with
  | nil => rfl
  | cons x xs => simp [ewmAdjFalse, ewmaFrom_length]

/-- The rolling mean produces one output per input. -/
lemma rollingMean_length (w : Nat) (xs : List ℚ) :
    (rollingMean w xs).length = xs.length := by
  simp [rollingMean]

/-- Masking preserves length. -/
lemma maskMinPeriods_length (w : Nat) (ys : List ℚ) :
    (maskMinPeriods w ys).length = ys.length := by
  simp [maskMinPeriods]

/-- The EMA indicator produces one output per input. -/
lemma emaIndicator_length (w : Nat) (xs : List ℚ) :
    (emaIndicator w xs).length = xs.length := by
  simp [emaIndicator, maskMinPeriods_length, ewmAdjFalse_length]

/-- Attaching indicator columns of matching length leaves the base rows
unchanged. -/
lemma attachInd_map_base : ∀ (rs : List PriceRow) (ss es : List (Option ℚ)),
    rs.length = ss.length → rs.length = es.length →
    (attachInd rs ss es).map IndRow.base = rs := by
  intro rs
  induction rs with
  | nil => intro ss es _ _; rfl
  | cons r rs ih =>
      intro ss es h1 h2
      cases ss with
      | nil => simp at h1
      | cons s ss =>
          cases es with
          | nil => simp at h2
          | cons e es =>
              simp only [attachInd, List.map_cons, List.cons.injEq]
              exact ⟨trivial, ih ss es (by simpa using h1) (by simpa using h2)⟩

/-- Attaching indicator columns of matching length leaves the SMA column
as computed. -/
lemma attachInd_map_sma20 : ∀ (rs : List PriceRow) (ss es : List (Option ℚ)),
    rs.length = ss.length → rs.length = es.length →
    (attachInd rs ss es).map IndRow.sma20 = ss := by
  intro rs
  induction rs with
  | nil =>
      intro ss es h1 _
      rw [List.eq_nil_of_length_eq_zero h1.symm]
      rfl
  | cons r rs ih =>
      intro ss es h1 h2
      cases ss with
      | nil => simp at h1
      | cons s ss =>
          cases es with
          | nil => simp at h2
          | cons e es =>
              simp only [attachInd, List.map_cons, List.cons.injEq]
              exact ⟨trivial, ih ss es (by simpa using h1) (by simpa using h2)⟩

/-- Attaching indicator columns of matching length leaves the EMA column
as computed. -/
lemma attachInd_map_ema20 : ∀ (rs : List PriceRow) (ss es : List (Option ℚ)),
    rs.length = ss.length → rs.length = es.length →
    (attachInd rs ss es).map IndRow.ema20 = es := by
  intro rs
  induction rs with
  | nil =>
      intro ss es _ h2
      rw [List.eq_nil_of_length_eq_zero h2.symm]
      rfl
  | cons r rs ih =>
      intro ss es h1 h2
      cases ss with
      | nil => simp at h1
      | cons s ss =>
          cases es with
          | nil => simp at h2
          | cons e es =>
              simp only [attachInd, List.map_cons, List.cons.injEq]
              exact ⟨trivial, ih ss es (by simpa using h1) (by simpa using h2)⟩

/-- The SMA column of `add_technical_indicators` is exactly the rolling
mean of the Close column. -/
lemma add_technical_indicators_sma (t : PriceTable) :
    (add_technical_indicators t).map IndRow.sma20 =
      rollingMean 20 (t.map PriceRow.close) := by
  refine attachInd_map_sma20 _ _ _ ?_ ?_
  · rw [rollingMean_length, List.length_map]
  · rw [emaIndicator_length, List.length_map]

/-- The EMA column of `add_technical_indicators` is exactly the masked
adjust-False EWMA of the Close column. -/
lemma add_technical_indicators_ema (t : PriceTable) :
    (add_technical_indicators t).map IndRow.ema20 =
      emaIndicator 20 (t.map PriceRow.close) := by
  refine attachInd_map_ema20 _ _ _ ?_ ?_
  · rw [rollingMean_length, List.length_map]
  · rw [emaIndicator_length, List.length_map]

end IndicatorLemmas

/-- C10: `add_technical_indicators` only appends the two indicator
columns: every pre-existing column of every input table keeps exactly its
prior values (the base rows come back unchanged) and the row count is
unchanged. -/
theorem c10_add_indicators_preserves_frame :
    ∀ t : PriceTable,
      (add_technical_indicators t).map IndRow.base = t ∧
      (add_technical_indicators t).length = t.length := by
  intro t
  have hb : (add_technical_indicators t).map IndRow.base = t := by
    refine attachInd_map_base _ _ _ ?_ ?_
    · rw [rollingMean_length, List.length_map]
    · rw [emaIndicator_length, List.length_map]
  refine ⟨hb, ?_⟩
  calc (add_technical_indicators t).length
      = ((add_technical_indicators t).map IndRow.base).length :=
        (List.length_map _ _).symm
    _ = t.length := by rw [hb]

section EwmaBridge

/-- Cell lookup in a rolling mean: masked below a full window, the
trailing-window mean afterwards. -/
lemma rollingMean_getElem? (w : Nat) (xs : List ℚ) (i : Nat) (hi : i < xs.length) :
    (rollingMean w xs)[i]? =
      some (if i + 1 < w then none
        else some (((xs.drop (i + 1 - w)).take w).sum / (w : ℚ))) := by
  simp [rollingMean, List.getElem?_range hi]

/-- Cell lookup in the `min_periods` mask. -/
lemma maskMinPeriods_getElem? (w : Nat) (ys : List ℚ) (i : Nat) (hi : i < ys.length) :
    (maskMinPeriods w ys)[i]? =
      some (if i + 1 < w then none else some (ys.getD i 0)) := by
  simp [maskMinPeriods, List.getElem?_range hi]

/-- First cell of the EWMA continuation. -/
lemma ewmaFrom_getD_zero (a : ℚ) : ∀ (xs : List ℚ) (y : ℚ), 0 < xs.length →
    (ewmaFrom a y xs).getD 0 0 = (1 - a) * y + a * xs.getD 0 0
  | [], _, h => absurd h (by simp)
  | x :: xs, y, _ => by simp [ewmaFrom]

/-- Each later cell of the EWMA continuation follows the recursion
`y_(i+1) = (1 - a) * y_i + a * x_(i+1)`. -/
lemma ewmaFrom_getD_succ (a : ℚ) : ∀ (xs : List ℚ) (y : ℚ) (i : Nat),
    i + 1 < xs.length →
    (ewmaFrom a y xs).getD (i + 1) 0 =
      (1 - a) * (ewmaFrom a y xs).getD i 0 + a * xs.getD (i + 1) 0
  | [], _, _, h => absurd h (by simp)
  | x :: xs, y, 0, h => by
      have hx : 0 < xs.length := by simpa using h
      simp only [ewmaFrom, List.getD_cons_succ, List.getD_cons_zero]
      exact ewmaFrom_getD_zero a xs _ hx
  | x :: xs, y, i + 1, h => by
      have hx : i + 1 < xs.length := by simpa using h
      simp only [ewmaFrom, List.getD_cons_succ]
      exact ewmaFrom_getD_succ a xs _ i hx

/-- The adjust-False EWMA list agrees cell-by-cell with the index
recursion seeded at the first observation: `e_0 = x_0`,
`e_(i+1) = (1 - a) * e_i + a * x_(i+1)`. -/
lemma ewmAdjFalse_getD (a : ℚ) (xs : List ℚ) :
    ∀ i, i < xs.length → (ewmAdjFalse a xs).getD i 0 = emaSeedFirst a xs i := by
  intro i
  induction i with
  | zero =>
      intro h
      cases xs with
      | nil => simp at h
      | cons x xs => simp [ewmAdjFalse, emaSeedFirst]
  | succ i ih =>
      intro h
      cases xs with
      | nil => simp at h
      | cons x xs =>
          cases i with
          | zero =>
              have hx : 0 < xs.length := by simpa using h
              simp only [ewmAdjFalse, List.getD_cons_succ, emaSeedFirst,
                List.headD_cons]
              exact ewmaFrom_getD_zero a xs x hx
          | succ j =>
              have hx : j + 1 < xs.length := by simpa using h
              have ih' := ih (by omega)
              simp only [ewmAdjFalse, List.getD_cons_succ] at ih' ⊢
              rw [ewmaFrom_getD_succ a xs x j hx, ih']
              simp only [emaSeedFirst, List.getD_cons_succ]

end EwmaBridge

/-- A 20-row table whose Close column is 100 followed by nineteen zeros:
the first row where the indicators become defined separates the two EMA
seeding conventions (window-SMA seed gives 5 there; the code's
first-value seed gives 100·(19/21)¹⁹). -/
def emaProbeTable : PriceTable :=
  [⟨0, 1, 1, 1, 100, 1⟩, ⟨1, 1, 1, 1, 0, 1⟩, ⟨2, 1, 1, 1, 0, 1⟩,
   ⟨3, 1, 1, 1, 0, 1⟩, ⟨4, 1, 1, 1, 0, 1⟩, ⟨5, 1, 1, 1, 0, 1⟩,
   ⟨6, 1, 1, 1, 0, 1⟩, ⟨7, 1, 1, 1, 0, 1⟩, ⟨8, 1, 1, 1, 0, 1⟩,
   ⟨9, 1, 1, 1, 0, 1⟩, ⟨10, 1, 1, 1, 0, 1⟩, ⟨11, 1, 1, 1, 0, 1⟩,
   ⟨12, 1, 1, 1, 0, 1⟩, ⟨13, 1, 1, 1, 0, 1⟩, ⟨14, 1, 1, 1, 0, 1⟩,
   ⟨15, 1, 1, 1, 0, 1⟩, ⟨16, 1, 1, 1, 0, 1⟩, ⟨17, 1, 1, 1, 0, 1⟩,
   ⟨18, 1, 1, 1, 0, 1⟩, ⟨19, 1, 1, 1, 0, 1⟩]

/-- C2 counterexample: the code's EMA_20 is not seeded from the first
available 20-bar window.  On the 20-row table with Close
`100, 0, …, 0`, the window-seeded EMA at the first defined row (row 20)
is the window SMA, 5, while the code's column holds the adjust-False
recursion value seeded at the first Close — the two differ. -/
theorem c2_ema_window_seed_cex :
    ((add_technical_indicators emaProbeTable).map IndRow.ema20).getD 19 none ≠
      emaSeedWindow 20 (2 / (20 + 1 : ℚ)) (emaProbeTable.map PriceRow.close) 19 := by
  rw [add_technical_indicators_ema]
  have hlen : (19 : Nat) <
      (ewmAdjFalse (2 / ((20 : Nat) + 1 : ℚ)) (emaProbeTable.map PriceRow.close)).length := by
    rw [ewmAdjFalse_length, List.length_map]
    decide
  have hmask := maskMinPeriods_getElem? 20
    (ewmAdjFalse (2 / ((20 : Nat) + 1 : ℚ)) (emaProbeTable.map PriceRow.close)) 19 hlen
  have hgd : (emaIndicator 20 (emaProbeTable.map PriceRow.close)).getD 19 none =
      some ((ewmAdjFalse (2 / ((20 : Nat) + 1 : ℚ))
        (emaProbeTable.map PriceRow.close)).getD 19 0) := by
    rw [emaIndicator, List.getD_eq_getElem?_getD, hmask]
    norm_num
  rw [hgd, ewmAdjFalse_getD _ _ 19 (by rw [List.length_map]; decide)]
  have hclose : emaProbeTable.map PriceRow.close =
      [100, 0, 0, 0, 0, 0, 0, 0, 0, 0, 0, 0, 0, 0, 0, 0, 0, 0, 0, 0] := by
    simp [emaProbeTable]
  rw [hclose]
  norm_num [emaSeedFirst, emaSeedWindow]

/-- C2 amended: for every table with at least 20 rows, SMA_20 and EMA_20
are undefined for rows 1–19 and defined from row 20 on; SMA_20 at a
defined row is the arithmetic mean of the 20 trailing Close values; and
EMA_20 is the exponential moving average of Close with smoothing factor
2/(20+1) seeded at the first Close value (`e_1 = Close_1`,
`e_(t+1) = (1-α)·e_t + α·Close_(t+1)`) with the first 19 outputs masked
as undefined — not seeded from the SMA of the first 20-bar window. -/
theorem c2_indicator_columns :
    ∀ (t : PriceTable) (i : Nat), 20 ≤ t.length → i < t.length →
      (((add_technical_indicators t).map IndRow.sma20)[i]? =
        some (if i + 1 < 20 then none
          else some ((((t.map PriceRow.close).drop (i + 1 - 20)).take 20).sum /
            (20 : ℚ)))) ∧
      (((add_technical_indicators t).map IndRow.ema20)[i]? =
        some (if i + 1 < 20 then none
          else some (emaSeedFirst (2 / (20 + 1 : ℚ)) (t.map PriceRow.close) i))) := by
  intro t i _h20 hi
  have hmapl : i < (t.map PriceRow.close).length := by
    rw [List.length_map]; exact hi
  constructor
  · rw [add_technical_indicators_sma, rollingMean_getElem? 20 _ i hmapl]
    norm_num
  · rw [add_technical_indicators_ema]
    have hlen : i < (ewmAdjFalse (2 / ((20 : Nat) + 1 : ℚ))
        (t.map PriceRow.close)).length := by
      rw [ewmAdjFalse_length]; exact hmapl
    rw [emaIndicator, maskMinPeriods_getElem? 20 _ i hlen]
    by_cases hlt : i + 1 < 20
    · simp [hlt]
    · rw [if_neg hlt, if_neg hlt, ewmAdjFalse_getD _ _ i hmapl]
      norm_num

/-- Witness for C2 at the 20-row probe table and the first defined
row. -/
theorem c2_indicator_columns_witness :
    20 ≤ emaProbeTable.length ∧ 19 < emaProbeTable.length ∧
    (((add_technical_indicators emaProbeTable).map IndRow.sma20)[19]? =
      some (if 19 + 1 < 20 then none
        else some ((((emaProbeTable.map PriceRow.close).drop (19 + 1 - 20)).take 20).sum /
          (20 : ℚ)))) :=
  ⟨by decide, by decide,
    (c2_indicator_columns emaProbeTable 19 (by decide) (by decide)).1⟩

/-- An environment where the very first watchlist symbol's fetch raises
and every other symbol would fetch fine. -/
def envOneFetchRaises : String → SymbolOutcome := fun s =>
  if s = "AAPL" then .fetchRaises else .ok twoRowTable

/-- An environment exercising the non-raising paths: a good quote, an
empty fetch, a failing quote computation, a good quote. -/
def envMixed : String → SymbolOutcome := fun s =>
  if s = "AAPL" then .ok twoRowTable
  else if s = "GOOGL" then .fetchEmpty
  else if s = "AMZN" then .ok []
  else .ok twoRowTable

/-- C5 counterexample: a failure while fetching one symbol aborts the
others.  When AAPL's fetch raises, the loop renders nothing at all —
GOOGL's correct quote (which the quote computation would produce) never
appears — because the fetch call sits outside the per-symbol `try`. -/
theorem c5_watchlist_isolation_cex :
    runWatchlist envOneFetchRaises stock_symbols = ([], true) ∧
    watchQuote twoRowTable =
      some { last_price := 105, change := 104, pct_change := 10400 } ∧
    SidebarItem.metric "GOOGL"
        { last_price := 105, change := 104, pct_change := 10400 } ∉
      (runWatchlist envOneFetchRaises stock_symbols).1 := by
  have h1 : runWatchlist envOneFetchRaises stock_symbols = ([], true) := rfl
  refine ⟨h1, ?_, ?_⟩
  · norm_num [watchQuote, twoRowTable]
  · rw [h1]
    simp

/-- C5 amended: isolation holds only for failures inside the per-symbol
`try` block.  If no symbol's fetch or normalization raises, the loop
renders every symbol independently — quotes for successful symbols, a
per-symbol error message where the quote computation fails, nothing for
empty fetches — and finishes normally.  But as soon as one symbol's fetch
or normalization raises, the loop aborts: only the symbols before it
render, and every later symbol renders nothing. -/
theorem c5_watchlist_isolation :
    ∀ (env : String → SymbolOutcome) (syms : List String),
      ((∀ s ∈ syms, env s ≠ .fetchRaises ∧ env s ≠ .processRaises) →
        runWatchlist env syms = (syms.filterMap (renderOne env), false)) ∧
      (∀ (pre : List String) (s : String) (post : List String),
        syms = pre ++ s :: post →
        (∀ x ∈ pre, env x ≠ .fetchRaises ∧ env x ≠ .processRaises) →
        (env s = .fetchRaises ∨ env s = .processRaises) →
        runWatchlist env syms = (pre.filterMap (renderOne env), true)) := by
  intro env syms
  constructor
  · induction syms with
    | nil => intro _; rfl
    | cons s rest ih =>
        intro h
        have hs := h s (List.mem_cons_self s rest)
        have hrest : ∀ x ∈ rest, env x ≠ .fetchRaises ∧ env x ≠ .processRaises :=
          fun x hx => h x (List.mem_cons_of_mem s hx)
        have tail_eq := ih hrest
        cases henv : env s with
        | fetchRaises => exact absurd henv hs.1
        | processRaises => exact absurd henv hs.2
        | fetchEmpty =>
            have hr : renderOne env s = none := by simp [renderOne, henv]
            simp only [runWatchlist, henv, List.filterMap_cons, hr]
            exact tail_eq
        | ok t =>
            cases hq : watchQuote t with
            | some q =>
                have hr : renderOne env s = some (.metric s q) := by
                  simp [renderOne, henv, hq]
                simp only [runWatchlist, henv, hq, List.filterMap_cons, hr, tail_eq]
            | none =>
                have hr : renderOne env s = some (.errorMsg s) := by
                  simp [renderOne, henv, hq]
                simp only [runWatchlist, henv, hq, List.filterMap_cons, hr, tail_eq]
  · intro pre s post heq hpre hraise
    subst heq
    revert hpre
    induction pre with
    | nil =>
        intro _
        rcases hraise with h | h <;> simp [runWatchlist, h]
    | cons p pre ih =>
        intro hpre
        have hp := hpre p (List.mem_cons_self p pre)
        have ih' := ih (fun x hx => hpre x (List.mem_cons_of_mem p hx))
        cases henv : env p with
        | fetchRaises => exact absurd henv hp.1
        | processRaises => exact absurd henv hp.2
        | fetchEmpty =>
            have hr : renderOne env p = none := by simp [renderOne, henv]
            simp only [List.cons_append, runWatchlist, henv, List.filterMap_cons, hr]
            exact ih'
        | ok t =>
            cases hq : watchQuote t with
            | some q =>
                have hr : renderOne env p = some (.metric p q) := by
                  simp [renderOne, henv, hq]
                simp only [List.cons_append, runWatchlist, henv, hq,
                  List.filterMap_cons, hr, List.append_eq, ih']
            | none =>
                have hr : renderOne env p = some (.errorMsg p) := by
                  simp [renderOne, henv, hq]
                simp only [List.cons_append, runWatchlist, henv, hq,
                  List.filterMap_cons, hr, List.append_eq, ih']

/-- Witness for C5's no-raise branch on the four fixed symbols with a
mixed environment. -/
theorem c5_watchlist_isolation_witness :
    runWatchlist envMixed stock_symbols =
      (stock_symbols.filterMap (renderOne envMixed), false) :=
  (c5_watchlist_isolation envMixed stock_symbols).1 (by decide)

end StocksDashboard
